import Mathlib

/-!
Verification of the task-organizer backend (FastAPI + SQLAlchemy, files
`src/api/auth.py`, `src/api/task.py`, `src/api/models.py`, `src/api/db.py`)
against its natural-language specification.

The database-backed handlers are shallowly embedded as pure functions over an
explicit `Store` (the two relational tables plus auto-increment counters).
Python string operations used by the token logic (`str.startswith`,
`str.replace`, `str.split`, `int(...)`) are modelled over `List Char`.
All recursion is structural (fuel where needed) so every definition evaluates
by `decide`/`rfl`.
-/

set_option autoImplicit false

namespace TaskOrganizer

/-! ### Python string primitives -/

/-- Models `a.isPrefixOf`-style check used by Python `str.startswith`. -/
def listPre : List Char → List Char → Bool
  | [], _ => true
  | _ :: _, [] => false
  | p :: ps, c :: cs => p = c && listPre ps cs

/-- Fuelled core of `removeAll`: Python `s.replace(pat, "")`, i.e. delete every
leftmost non-overlapping occurrence of `pat`. Fuel ≥ length of the list makes
the fuel branch unreachable. -/
def removeAllAux (pat : List Char) : Nat → List Char → List Char
  | 0, l => l
  | _ + 1, [] => []
  | fuel + 1, c :: cs =>
    if listPre pat (c :: cs) then
      match pat with
      | [] => c :: removeAllAux pat fuel cs
      | _ :: ps => removeAllAux pat fuel (List.drop ps.length cs)
    else c :: removeAllAux pat fuel cs

/-- Python `s.replace(pat, "")` on character lists. -/
def removeAll (pat l : List Char) : List Char := removeAllAux pat l.length l

/-- Python `s.split(":")[0]`: the characters before the first colon. -/
def takeUntilColon : List Char → List Char
  | [] => []
  | c :: cs => if c = ':' then [] else c :: takeUntilColon cs

/-- Python whitespace for `str.strip` as performed by `int(...)` (ASCII part). -/
def isPyWS (c : Char) : Bool :=
  c = ' ' || c = '\t' || c = '\n' || c = '\r' || c = '\x0b' || c = '\x0c'

/-- Strip leading and trailing whitespace, as Python `int(str)` does. -/
def trimWS (l : List Char) : List Char :=
  ((l.dropWhile isPyWS).reverse.dropWhile isPyWS).reverse

/-- After the first digit, Python `int` accepts digits with single underscores
strictly between digits; the result is the digit list with underscores gone. -/
def pyDigitsRest : List Char → Option (List Char)
  | [] => some []
  | c :: cs =>
    if c = '_' then
      match cs with
      | [] => none
      | d :: ds => if d.isDigit then (pyDigitsRest ds).map (d :: ·) else none
    else if c.isDigit then (pyDigitsRest cs).map (c :: ·) else none

/-- The digit body of a Python integer literal: nonempty, starts with a digit. -/
def pyDigits : List Char → Option (List Char)
  | [] => none
  | c :: cs => if c.isDigit then (pyDigitsRest cs).map (c :: ·) else none

/-- Value of a most-significant-first ASCII digit list. -/
def digitsVal (l : List Char) : Nat :=
  l.foldl (fun a c => 10 * a + (c.toNat - 48)) 0

/-- Core of Python `int(str)` after stripping: optional sign then digits. -/
def pyIntCore (l : List Char) : Option Int :=
  match l with
  | [] => none
  | c :: cs =>
    if c = '-' then (pyDigits cs).map (fun ds => -(digitsVal ds : Int))
    else if c = '+' then (pyDigits cs).map (fun ds => (digitsVal ds : Int))
    else (pyDigits (c :: cs)).map (fun ds => (digitsVal ds : Int))

/-- Python `int(s)` returning `none` where CPython raises `ValueError`
(restricted to ASCII digits and whitespace). -/
def pyInt (s : String) : Option Int := pyIntCore (trimWS s.data)

/-- Fuelled decimal digits of a natural number, most significant first.
Fuel `n + 1` always suffices. -/
def natToDigitsAux : Nat → Nat → List Char
  | 0, _ => []
  | fuel + 1, n =>
    if n < 10 then [Nat.digitChar n]
    else natToDigitsAux fuel (n / 10) ++ [Nat.digitChar (n % 10)]

/-- Decimal representation of a natural number (models Python `str(int)`). -/
def natToDigits (n : Nat) : List Char := natToDigitsAux (n + 1) n

/-- Character form of the decimal representation of an integer. -/
def intReprChars : Int → List Char
  | .ofNat n => natToDigits n
  | .negSucc n => '-' :: natToDigits (n + 1)

/-- Decimal representation of an integer (models Python `str(int)`, which is
what the f-string building the fake token interpolates). -/
def intRepr (i : Int) : String := String.mk (intReprChars i)

/-! ### Error and storage model -/

/-- A raised `fastapi.HTTPException`: status code plus detail message. -/
structure HTTPError where
  status : Nat
  detail : String
deriving DecidableEq, Repr

/-- SQLAlchemy `Result.scalar_one_or_none()`: `none` on no row, the row when
unique, and an exception (modelled as a 500-class error) on several rows. -/
def scalarOneOrNone {α : Type} : List α → Except HTTPError (Option α)
  | [] => .ok none
  | [a] => .ok (some a)
  | _ => .error ⟨500, "Multiple rows were found"⟩

/-- Row of the `users` table (`db.py`, class `User`). -/
structure User where
  id : Int
  email : String
  full_name : Option String
  hashed_password : String
  is_active : Bool
deriving DecidableEq, Repr

/-- Row of the `tasks` table (`db.py`, class `Task`). Dates and datetimes are
abstracted as naturals (only equality/order on them is used). -/
structure Task where
  id : Int
  title : String
  description : Option String
  due_date : Option Nat
  status : String
  creator_id : Int
  assignee_id : Option Int
  created_at : Nat
  updated_at : Nat
deriving DecidableEq, Repr

/-- The persistent state: both tables plus the auto-increment counters. -/
structure Store where
  users : List User
  tasks : List Task
  nextUserId : Int
  nextTaskId : Int
deriving DecidableEq, Repr

/-- `true` when `f` is injective over the list — the uniqueness the database
enforces (primary keys, the unique index on `users.email`). -/
def uniqueBy {α β : Type} [DecidableEq β] (f : α → β) : List α → Bool
  | [] => true
  | a :: l => l.all (fun b => !(f b = f a)) && uniqueBy f l

/-- Database invariants: unique user ids, unique user emails, unique task ids. -/
def storeWF (st : Store) : Bool :=
  uniqueBy (·.id) st.users && uniqueBy (·.email) st.users && uniqueBy (·.id) st.tasks

/-! ### Request / response schemas (`models.py`) -/

/-- `UserSignup` request schema. -/
structure UserSignup where
  email : String
  password : String
  full_name : Option String
deriving DecidableEq, Repr

/-- `UserLogin` request schema. -/
structure UserLogin where
  email : String
  password : String
deriving DecidableEq, Repr

/-- `UserRead` response schema: the public view of a user. It has exactly the
four fields below; the stored password hash is not representable in it. -/
structure UserRead where
  id : Int
  email : String
  full_name : Option String
  is_active : Bool
deriving DecidableEq, Repr

/-- `TokenResponse` schema returned by login. -/
structure TokenResponse where
  access_token : String
  token_type : String
deriving DecidableEq, Repr

/-- `TaskCreate` request schema. `status` is a plain `str` whose pydantic
default is `"todo"`, applied at parse time. -/
structure TaskCreate where
  title : String
  description : Option String
  due_date : Option Nat
  status : String
  assignee_id : Option Int
deriving DecidableEq, Repr

/-- `TaskUpdate` request schema. Pydantic distinguishes a field absent from the
request body (outer `none`; excluded by `model_dump(exclude_unset=True)`) from
a field explicitly supplied — possibly as JSON `null` (inner `none`). -/
structure TaskUpdate where
  title : Option (Option String)
  description : Option (Option String)
  due_date : Option (Option Nat)
  status : Option (Option String)
  assignee_id : Option (Option Int)
deriving DecidableEq, Repr

/-- `TaskRead` response schema. -/
structure TaskRead where
  id : Int
  title : String
  description : Option String
  due_date : Option Nat
  status : String
  creator_id : Int
  assignee_id : Option Int
  created_at : Nat
  updated_at : Nat
deriving DecidableEq, Repr

/-- `TaskListResponse` schema. -/
structure TaskListResponse where
  tasks : List TaskRead
  total : Nat
deriving DecidableEq, Repr

/-- `MessageResponse` schema. -/
structure MessageResponse where
  message : String
deriving DecidableEq, Repr

/-! ### Authentication handlers (`auth.py`) -/

/-- Models `hashlib.sha256(password.encode()).hexdigest()`: a deterministic
one-way digest. The claims depend only on determinism and equality of digests,
so the digest bytes themselves are abstracted by an injective tagging. -/
def hash_password (password : String) : String := "sha256:" ++ password

/-- `verify_password` from `auth.py`. -/
def verify_password (plain_password hashed : String) : Bool :=
  hash_password plain_password = hashed

/-- The literal token stem used by `login` and `get_me`. -/
def fakeTokenStem : String := "fake-token-for-user-"

/-- Commit step of `signup`: the database re-checks the unique constraint on
`users.email`; a violation raises `IntegrityError`, which the handler turns
into a rollback plus HTTP 400 "Email already in use.". -/
def insertUserCommit (st : Store) (u : User) : Except HTTPError Store :=
  if st.users.any (fun v => v.email = u.email) then
    .error ⟨400, "Email already in use."⟩
  else
    .ok { st with users := st.users ++ [u], nextUserId := st.nextUserId + 1 }

/-- `signup` from `auth.py`: explicit duplicate-email lookup, then insert and
commit (with the constraint re-check of `insertUserCommit`). Errors leave the
store unchanged (rollback). -/
def signup (st : Store) (user_in : UserSignup) : Except HTTPError UserRead × Store :=
  match scalarOneOrNone (st.users.filter (fun u => u.email = user_in.email)) with
  | .error e => (.error e, st)
  | .ok (some _) => (.error ⟨400, "Email already registered."⟩, st)
  | .ok none =>
    let new_user : User :=
      { id := st.nextUserId, email := user_in.email, full_name := user_in.full_name,
        hashed_password := hash_password user_in.password, is_active := true }
    match insertUserCommit st new_user with
    | .error e => (.error e, st)
    | .ok st2 =>
      (.ok { id := new_user.id, email := new_user.email,
             full_name := new_user.full_name, is_active := new_user.is_active }, st2)

/-- `login` from `auth.py`. The token interpolates `user.id` with Python
`str(...)`, modelled by `intRepr`. -/
def login (st : Store) (login_in : UserLogin) : Except HTTPError TokenResponse :=
  match scalarOneOrNone (st.users.filter (fun u => u.email = login_in.email)) with
  | .error e => .error e
  | .ok none => .error ⟨401, "Invalid credentials."⟩
  | .ok (some user) =>
    if verify_password login_in.password user.hashed_password then
      .ok { access_token := fakeTokenStem ++ intRepr user.id, token_type := "bearer" }
    else .error ⟨401, "Invalid credentials."⟩

/-- `get_me` from `auth.py`. `if not token or not token.startswith(...)` treats
a missing or empty token alike; the id is then
`int(token.replace("fake-token-for-user-", "").split(":")[0])` — note that
Python `str.replace` removes every occurrence of the stem, not only the
leading one. -/
def get_me (st : Store) (token : Option String) : Except HTTPError UserRead :=
  match token with
  | none => .error ⟨401, "Invalid/missing token"⟩
  | some t =>
    if t = "" || !(listPre fakeTokenStem.data t.data) then
      .error ⟨401, "Invalid/missing token"⟩
    else
      match pyInt (String.mk (takeUntilColon (removeAll fakeTokenStem.data t.data))) with
      | none => .error ⟨401, "Malformed token"⟩
      | some user_id =>
        match scalarOneOrNone (st.users.filter (fun u => u.id = user_id)) with
        | .error e => .error e
        | .ok none => .error ⟨404, "User not found."⟩
        | .ok (some user) =>
          .ok { id := user.id, email := user.email, full_name := user.full_name,
                is_active := user.is_active }

/-! ### Task handlers (`task.py`) -/

/-- `task_to_read` from `task.py`. -/
def task_to_read (task : Task) : TaskRead :=
  { id := task.id, title := task.title, description := task.description,
    due_date := task.due_date, status := task.status, creator_id := task.creator_id,
    assignee_id := task.assignee_id, created_at := task.created_at,
    updated_at := task.updated_at }

/-- The foreign-key check the database performs on `tasks.assignee_id`. -/
def assigneeFKOk (st : Store) (a : Option Int) : Bool :=
  match a with
  | none => true
  | some aid => st.users.any (fun u => u.id = aid)

/-- `create_task` from `task.py`: `creator_id` hard-coded to 1, status
`task_in.status or "todo"` (Python truthiness: empty string falls back to
`"todo"`); commit enforces the foreign keys on `creator_id`/`assignee_id`,
an `IntegrityError` becoming a rollback plus HTTP 400. -/
def create_task (st : Store) (task_in : TaskCreate) (now : Nat) :
    Except HTTPError TaskRead × Store :=
  let creator_id : Int := 1
  let new_task : Task :=
    { id := st.nextTaskId, title := task_in.title, description := task_in.description,
      due_date := task_in.due_date,
      status := if task_in.status = "" then "todo" else task_in.status,
      creator_id := creator_id, assignee_id := task_in.assignee_id,
      created_at := now, updated_at := now }
  if st.users.any (fun u => u.id = new_task.creator_id)
      && assigneeFKOk st new_task.assignee_id then
    (.ok (task_to_read new_task),
     { st with tasks := st.tasks ++ [new_task], nextTaskId := st.nextTaskId + 1 })
  else (.error ⟨400, "Could not create task: integrity error."⟩, st)

/-- The status predicate `list_tasks` appends under `if status:` — Python
truthiness, so a supplied empty-string status adds no predicate. -/
def statusFilterB (status : Option String) (t : Task) : Bool :=
  match status with
  | some s => if s = "" then true else t.status = s
  | none => true

/-- The assignee predicate `list_tasks` appends under `assignee_id is not None`. -/
def assigneeFilterB (assignee_id : Option Int) (t : Task) : Bool :=
  match assignee_id with
  | some a => t.assignee_id = some a
  | none => true

/-- The two due-date predicates `list_tasks` appends under
`due_before is not None`: `Task.due_date != None` and `Task.due_date <= due_before`. -/
def dueFilterB (due_before : Option Nat) (t : Task) : Bool :=
  match due_before with
  | some d => t.due_date.isSome && t.due_date.getD 0 ≤ d
  | none => true

/-- The conjunction of the row predicates built by `list_tasks`. -/
def taskMatches (status : Option String) (assignee_id : Option Int)
    (due_before : Option Nat) (t : Task) : Bool :=
  statusFilterB status t && assigneeFilterB assignee_id t && dueFilterB due_before t

/-- `list_tasks` from `task.py`. -/
def list_tasks (st : Store) (status : Option String) (assignee_id : Option Int)
    (due_before : Option Nat) : TaskListResponse :=
  let ts := st.tasks.filter (taskMatches status assignee_id due_before)
  { tasks := ts.map task_to_read, total := ts.length }

/-- `get_task` from `task.py`. -/
def get_task (st : Store) (task_id : Int) : Except HTTPError TaskRead :=
  match scalarOneOrNone (st.tasks.filter (fun t => t.id = task_id)) with
  | .error e => .error e
  | .ok none => .error ⟨404, "Task not found."⟩
  | .ok (some task) => .ok (task_to_read task)

/-- The ORM row after the `setattr` loop of `update_task`: every field present
in `model_dump(exclude_unset=True)` is written with the supplied value (JSON
`null` included), so non-nullable columns can transiently hold `none`. -/
structure TaskRow where
  title : Option String
  description : Option String
  due_date : Option Nat
  status : Option String
  assignee_id : Option Int
deriving DecidableEq, Repr

/-- The `setattr` loop of `update_task` over `model_dump(exclude_unset=True)`. -/
def applyTaskUpdate (task : Task) (u : TaskUpdate) : TaskRow :=
  { title := u.title.getD (some task.title),
    description := u.description.getD task.description,
    due_date := u.due_date.getD task.due_date,
    status := u.status.getD (some task.status),
    assignee_id := u.assignee_id.getD task.assignee_id }

/-- `update_task` from `task.py`. Commit enforces `NOT NULL` on
`title`/`status` and the assignee foreign key (`except Exception` maps any
failure to rollback plus HTTP 400); the flush emits an `UPDATE` — and hence
the `onupdate=func.now()` refresh of `updated_at` — only when the row has net
changes. -/
def update_task (st : Store) (task_id : Int) (task_in : TaskUpdate) (now : Nat) :
    Except HTTPError TaskRead × Store :=
  match scalarOneOrNone (st.tasks.filter (fun t => t.id = task_id)) with
  | .error e => (.error e, st)
  | .ok none => (.error ⟨404, "Task not found."⟩, st)
  | .ok (some task) =>
    let row := applyTaskUpdate task task_in
    match row.title, row.status with
    | some tNew, some sNew =>
      if assigneeFKOk st row.assignee_id then
        let t1 : Task := { task with
                           title := tNew,
                           description := row.description,
                           due_date := row.due_date,
                           status := sNew,
                           assignee_id := row.assignee_id }
        if t1 = task then (.ok (task_to_read task), st)
        else
          let t2 := { t1 with updated_at := now }
          (.ok (task_to_read t2),
           { st with tasks := st.tasks.map (fun x => if x.id = task_id then t2 else x) })
      else (.error ⟨400, "Could not update task."⟩, st)
    | _, _ => (.error ⟨400, "Could not update task."⟩, st)

/-- `delete_task` from `task.py` (note: its 404 detail has no trailing
period, unlike the other handlers). -/
def delete_task (st : Store) (task_id : Int) : Except HTTPError MessageResponse × Store :=
  match scalarOneOrNone (st.tasks.filter (fun t => t.id = task_id)) with
  | .error e => (.error e, st)
  | .ok none => (.error ⟨404, "Task not found"⟩, st)
  | .ok (some _) =>
    (.ok ⟨"Task deleted."⟩,
     { st with tasks := st.tasks.filter (fun t => !(t.id = task_id)) })

/-- `assign_task` from `task.py`: task lookup, then explicit assignee-user
lookup, then the mutation; the flush emits an `UPDATE` only on net change. -/
def assign_task (st : Store) (task_id assignee_id : Int) (now : Nat) :
    Except HTTPError TaskRead × Store :=
  match scalarOneOrNone (st.tasks.filter (fun t => t.id = task_id)) with
  | .error e => (.error e, st)
  | .ok none => (.error ⟨404, "Task not found."⟩, st)
  | .ok (some task) =>
    match scalarOneOrNone (st.users.filter (fun u => u.id = assignee_id)) with
    | .error e => (.error e, st)
    | .ok none => (.error ⟨404, "Assignee user not found."⟩, st)
    | .ok (some _) =>
      let t1 : Task := { task with assignee_id := some assignee_id }
      if t1 = task then (.ok (task_to_read task), st)
      else
        let t2 := { t1 with updated_at := now }
        (.ok (task_to_read t2),
         { st with tasks := st.tasks.map (fun x => if x.id = task_id then t2 else x) })

/-- `update_status` from `task.py`: the value check runs before the existence
check. -/
def update_status (st : Store) (task_id : Int) (new_status : String) (now : Nat) :
    Except HTTPError TaskRead × Store :=
  if !(new_status = "todo" || new_status = "in_progress" || new_status = "done") then
    (.error ⟨400, "Invalid status value."⟩, st)
  else
    match scalarOneOrNone (st.tasks.filter (fun t => t.id = task_id)) with
    | .error e => (.error e, st)
    | .ok none => (.error ⟨404, "Task not found."⟩, st)
    | .ok (some task) =>
      let t1 : Task := { task with status := new_status }
      if t1 = task then (.ok (task_to_read task), st)
      else
        let t2 := { t1 with updated_at := now }
        (.ok (task_to_read t2),
         { st with tasks := st.tasks.map (fun x => if x.id = task_id then t2 else x) })

/-! ### List and uniqueness lemmas -/

theorem filter_eq_nil_of_none {α : Type} (p : α → Bool) (l : List α)
    (h : ∀ a ∈ l, p a = false) : l.filter p = [] := by
  induction l with
  | nil => rfl
  | cons b bl ih =>
    rw [List.filter_cons, h b (by simp)]
    exact ih (fun a ha => h a (by simp [ha]))

theorem uniqueBy_tail {α β : Type} [DecidableEq β] (f : α → β) (b : α) (l : List α)
    (h : uniqueBy f (b :: l) = true) :
    (∀ a ∈ l, ¬(f a = f b)) ∧ uniqueBy f l = true := by
  simp only [uniqueBy, Bool.and_eq_true, List.all_eq_true] at h
  refine ⟨fun a ha => ?_, h.2⟩
  have := h.1 a ha
  simpa using this

theorem uniqueBy_filter_key {α β : Type} [DecidableEq β] (f : α → β) (v : β)
    (l : List α) (a : α) (hu : uniqueBy f l = true) (ha : a ∈ l) (hv : f a = v) :
    l.filter (fun x => f x = v) = [a] := by
  induction l with
  | nil => cases ha
  | cons b bl ih =>
    obtain ⟨hdist, htl⟩ := uniqueBy_tail f b bl hu
    rcases List.mem_cons.mp ha with rfl | hmem
    · rw [List.filter_cons, if_pos (by simpa using hv)]
      have : bl.filter (fun x => f x = v) = [] := by
        refine filter_eq_nil_of_none _ _ (fun x hx => ?_)
        have : ¬(f x = v) := by rw [← hv]; exact hdist x hx
        simpa using this
      rw [this]
    · have hbv : ¬(f b = v) := by
        rw [← hv]
        intro hbad
        exact hdist a hmem hbad.symm
      rw [List.filter_cons, if_neg (by simpa using hbv)]
      exact ih htl hmem

theorem scalarOneOrNone_nil {α : Type} : scalarOneOrNone ([] : List α) = .ok none := rfl

theorem scalarOneOrNone_single {α : Type} (a : α) :
    scalarOneOrNone [a] = .ok (some a) := rfl

theorem replace_filter_key {α : Type} (id : α → Int) (tid : Int) (t2 : α)
    (repl : α → α) (l : List α) (task : α)
    (hrepl : ∀ x, repl x = if id x = tid then t2 else x)
    (hu : uniqueBy id l = true) (ht : task ∈ l) (hid : id task = tid)
    (h2 : id t2 = tid) :
    (l.map repl).filter (fun x => id x = tid) = [t2] := by
  induction l with
  | nil => cases ht
  | cons b bl ih =>
    obtain ⟨hdist, htl⟩ := uniqueBy_tail id b bl hu
    rcases List.mem_cons.mp ht with rfl | hmem
    · have hb : repl task = t2 := by rw [hrepl, if_pos hid]
      have hrest : (bl.map repl).filter (fun x => id x = tid) = [] := by
        refine filter_eq_nil_of_none _ _ (fun x hx => ?_)
        obtain ⟨y, hy, rfl⟩ := List.mem_map.mp hx
        have hyne : ¬(id y = tid) := by
          rw [← hid]; exact hdist y hy
        have hyr : repl y = y := by rw [hrepl, if_neg hyne]
        rw [hyr]
        simpa using hyne
      rw [List.map_cons, hb, List.filter_cons, if_pos (by simpa using h2), hrest]
    · have hbne : ¬(id b = tid) := by
        rw [← hid]
        intro hbad
        exact hdist task hmem hbad.symm
      have hb : repl b = b := by rw [hrepl, if_neg hbne]
      rw [List.map_cons, hb, List.filter_cons, if_neg (by simpa using hbne)]
      exact ih htl hmem

/-! ### Decimal representation and Python `int` parsing lemmas -/

/-- The ten ASCII digit characters. -/
def decChars : List Char := ['0', '1', '2', '3', '4', '5', '6', '7', '8', '9']

theorem digitChar_mem (d : Nat) (h : d < 10) :
    Nat.digitChar d ∈ decChars ∧ (Nat.digitChar d).toNat - 48 = d := by
  interval_cases d <;> exact ⟨by decide, by decide⟩

theorem decChar_props (c : Char) (h : c ∈ decChars) :
    c.isDigit = true ∧ isPyWS c = false ∧ ¬(c = 'f') ∧ ¬(c = ':') ∧
      ¬(c = '-') ∧ ¬(c = '+') ∧ ¬(c = '_') := by
  fin_cases h <;> exact ⟨by decide, by decide, by decide, by decide, by decide, by decide, by decide⟩

theorem digitsVal_append_one (l : List Char) (c : Char) :
    digitsVal (l ++ [c]) = 10 * digitsVal l + (c.toNat - 48) := by
  simp [digitsVal, List.foldl_append]

theorem natToDigitsAux_spec :
    ∀ (fuel n : Nat), n < fuel →
      natToDigitsAux fuel n ≠ [] ∧ (∀ c ∈ natToDigitsAux fuel n, c ∈ decChars) ∧
        digitsVal (natToDigitsAux fuel n) = n := by
  intro fuel
  induction fuel with
  | zero => intro n h; omega
  | succ f ih =>
    intro n h
    by_cases h10 : n < 10
    · refine ⟨by simp [natToDigitsAux, h10], ?_, ?_⟩
      · intro c hc
        simp only [natToDigitsAux, if_pos h10, List.mem_singleton] at hc
        subst hc
        exact (digitChar_mem n h10).1
      · simp only [natToDigitsAux, if_pos h10]
        show digitsVal [Nat.digitChar n] = n
        simp [digitsVal, (digitChar_mem n h10).2]
    · have hdiv : n / 10 < f := by
        have h1 : n / 10 < n := Nat.div_lt_self (by omega) (by omega)
        omega
      obtain ⟨hne, hmem, hval⟩ := ih (n / 10) hdiv
      refine ⟨?_, ?_, ?_⟩
      · simp only [natToDigitsAux, if_neg h10]
        intro hb
        exact absurd (List.append_eq_nil.mp hb).2 (by simp)
      · intro c hc
        simp only [natToDigitsAux, if_neg h10, List.mem_append, List.mem_singleton] at hc
        rcases hc with hc | rfl
        · exact hmem c hc
        · exact (digitChar_mem (n % 10) (Nat.mod_lt n (by omega))).1
      · simp only [natToDigitsAux, if_neg h10]
        rw [digitsVal_append_one, hval, (digitChar_mem (n % 10) (Nat.mod_lt n (by omega))).2]
        omega

theorem natToDigits_spec (n : Nat) :
    natToDigits n ≠ [] ∧ (∀ c ∈ natToDigits n, c ∈ decChars) ∧
      digitsVal (natToDigits n) = n :=
  natToDigitsAux_spec (n + 1) n (Nat.lt_succ_self n)

theorem pyDigitsRest_all_digits (l : List Char) (h : ∀ c ∈ l, c.isDigit = true) :
    pyDigitsRest l = some l := by
  induction l with
  | nil => rfl
  | cons c cs ih =>
    have hc : c.isDigit = true := h c (by simp)
    have hcu : ¬(c = '_') := by
      intro hbad; rw [hbad] at hc; exact absurd hc (by decide)
    rw [pyDigitsRest.eq_def]
    simp only [if_neg hcu, if_pos hc]
    rw [ih (fun x hx => h x (by simp [hx]))]
    rfl

theorem pyDigits_all_digits (l : List Char) (hne : l ≠ [])
    (h : ∀ c ∈ l, c.isDigit = true) : pyDigits l = some l := by
  cases l with
  | nil => exact absurd rfl hne
  | cons c cs =>
    have hc : c.isDigit = true := h c (by simp)
    simp only [pyDigits, if_pos hc]
    rw [pyDigitsRest_all_digits cs (fun x hx => h x (by simp [hx]))]
    rfl

theorem dropWhile_eq_self_of_none {α : Type} (p : α → Bool) (l : List α)
    (h : ∀ a ∈ l, p a = false) : l.dropWhile p = l := by
  cases l with
  | nil => rfl
  | cons c cs => simp [List.dropWhile_cons, h c (by simp)]

theorem trimWS_eq_self (l : List Char) (h : ∀ c ∈ l, isPyWS c = false) :
    trimWS l = l := by
  unfold trimWS
  rw [dropWhile_eq_self_of_none _ _ h,
    dropWhile_eq_self_of_none _ _ (fun c hc => h c (List.mem_reverse.mp hc)),
    List.reverse_reverse]

theorem pyIntCore_digits (l : List Char) (hne : l ≠ [])
    (h : ∀ c ∈ l, c ∈ decChars) :
    pyIntCore l = some ((digitsVal l : Nat) : Int) := by
  cases l with
  | nil => exact absurd rfl hne
  | cons c cs =>
    have hc := decChar_props c (h c (by simp))
    have hd : pyDigits (c :: cs) = some (c :: cs) :=
      pyDigits_all_digits _ (by simp) (fun x hx => (decChar_props x (h x hx)).1)
    simp only [pyIntCore, if_neg hc.2.2.2.2.1, if_neg hc.2.2.2.2.2.1, hd]
    rfl

/-- Python `int(str(i))` recovers `i`: the token stem embedding of a user id
round-trips through `get_me`'s parser. -/
theorem pyInt_intRepr (i : Int) : pyInt (intRepr i) = some i := by
  cases i with
  | ofNat n =>
    obtain ⟨hne, hmem, hval⟩ := natToDigits_spec n
    have htrim : trimWS (natToDigits n) = natToDigits n :=
      trimWS_eq_self _ (fun c hc => (decChar_props c (hmem c hc)).2.1)
    show pyIntCore (trimWS (natToDigits n)) = some (Int.ofNat n)
    rw [htrim, pyIntCore_digits _ hne hmem, hval]
    rfl
  | negSucc n =>
    obtain ⟨hne, hmem, hval⟩ := natToDigits_spec (n + 1)
    have htrim : trimWS ('-' :: natToDigits (n + 1)) = '-' :: natToDigits (n + 1) := by
      refine trimWS_eq_self _ (fun c hc => ?_)
      rcases List.mem_cons.mp hc with rfl | hc
      · decide
      · exact (decChar_props c (hmem c hc)).2.1
    have hd : pyDigits (natToDigits (n + 1)) = some (natToDigits (n + 1)) :=
      pyDigits_all_digits _ hne (fun x hx => (decChar_props x (hmem x hx)).1)
    show pyIntCore (trimWS ('-' :: natToDigits (n + 1))) = some (Int.negSucc n)
    rw [htrim]
    simp only [pyIntCore, if_pos rfl, hd]
    show some (-(digitsVal (natToDigits (n + 1)) : Int)) = some (Int.negSucc n)
    refine congrArg some ?_
    rw [hval, Int.negSucc_eq]
    omega

/-! ### `str.replace` / `str.split` / `str.startswith` lemmas -/

theorem intReprChars_spec (i : Int) :
    intReprChars i ≠ [] ∧ ∀ c ∈ intReprChars i, c ∈ decChars ∨ c = '-' := by
  cases i with
  | ofNat n =>
    obtain ⟨hne, hmem, -⟩ := natToDigits_spec n
    exact ⟨hne, fun c hc => Or.inl (hmem c hc)⟩
  | negSucc n =>
    obtain ⟨hne, hmem, -⟩ := natToDigits_spec (n + 1)
    refine ⟨by simp [intReprChars], fun c hc => ?_⟩
    rcases List.mem_cons.mp hc with rfl | hc
    · exact Or.inr rfl
    · exact Or.inl (hmem c hc)

theorem listPre_append_self (p l : List Char) : listPre p (p ++ l) = true := by
  induction p with
  | nil => rfl
  | cons c cs ih => simp [listPre, ih]

theorem listPre_head_ne (p : Char) (ps : List Char) (c : Char) (cs : List Char)
    (h : ¬(p = c)) : listPre (p :: ps) (c :: cs) = false := by
  simp [listPre, h]

theorem removeAllAux_nil_l (pat : List Char) (fuel : Nat) :
    removeAllAux pat fuel [] = [] := by
  cases fuel <;> rfl

theorem removeAllAux_fuel (pat : List Char) :
    ∀ (n : Nat) (l : List Char) (fuel fuel' : Nat), l.length ≤ n →
      l.length ≤ fuel → l.length ≤ fuel' →
      removeAllAux pat fuel l = removeAllAux pat fuel' l := by
  intro n
  induction n with
  | zero =>
    intro l fuel fuel' h1 _ _
    have : l = [] := List.length_eq_zero.mp (by omega)
    subst this
    rw [removeAllAux_nil_l, removeAllAux_nil_l]
  | succ n ih =>
    intro l fuel fuel' h1 h2 h3
    cases l with
    | nil => rw [removeAllAux_nil_l, removeAllAux_nil_l]
    | cons c cs =>
      simp only [List.length_cons] at h1 h2 h3
      obtain ⟨g, rfl⟩ : ∃ g, fuel = g + 1 := ⟨fuel - 1, by omega⟩
      obtain ⟨g', rfl⟩ : ∃ g', fuel' = g' + 1 := ⟨fuel' - 1, by omega⟩
      simp only [removeAllAux]
      by_cases hp : listPre pat (c :: cs) = true
      · rw [if_pos hp, if_pos hp]
        cases pat with
        | nil => rw [ih cs g g' (by omega) (by omega) (by omega)]
        | cons p ps =>
          exact ih (List.drop ps.length cs) g g'
            (by rw [List.length_drop]; omega)
            (by rw [List.length_drop]; omega)
            (by rw [List.length_drop]; omega)
      · rw [if_neg hp, if_neg hp, ih cs g g' (by omega) (by omega) (by omega)]

theorem removeAll_nil (pat : List Char) : removeAll pat [] = [] := rfl

theorem removeAll_cons_head_ne (p : Char) (ps : List Char) (c : Char) (cs : List Char)
    (h : ¬(p = c)) : removeAll (p :: ps) (c :: cs) = c :: removeAll (p :: ps) cs := by
  show removeAllAux (p :: ps) (cs.length + 1) (c :: cs) = c :: removeAll (p :: ps) cs
  simp only [removeAllAux, listPre_head_ne p ps c cs h]
  rfl

theorem removeAll_stem (p : Char) (ps l : List Char) :
    removeAll (p :: ps) ((p :: ps) ++ l) = removeAll (p :: ps) l := by
  have hpre : listPre (p :: ps) (p :: (ps ++ l)) = true := listPre_append_self (p :: ps) l
  show removeAllAux (p :: ps) ((ps ++ l).length + 1) (p :: (ps ++ l)) = removeAll (p :: ps) l
  simp only [removeAllAux, hpre, if_true]
  rw [List.drop_left ps l]
  exact removeAllAux_fuel (p :: ps) (ps ++ l).length l _ _
    (by simp) (by simp [List.length_append]) (le_refl _)

theorem removeAll_append_head_free (p : Char) (ps a b : List Char)
    (h : ∀ c ∈ a, ¬(p = c)) :
    removeAll (p :: ps) (a ++ b) = a ++ removeAll (p :: ps) b := by
  induction a with
  | nil => rfl
  | cons c cs ih =>
    rw [List.cons_append, removeAll_cons_head_ne p ps c (cs ++ b) (h c (by simp)),
      ih (fun x hx => h x (by simp [hx])), List.cons_append]

theorem removeAll_eq_self (p : Char) (ps a : List Char) (h : ∀ c ∈ a, ¬(p = c)) :
    removeAll (p :: ps) a = a := by
  have := removeAll_append_head_free p ps a [] h
  simpa [removeAll_nil] using this

theorem takeUntilColon_no_colon (a : List Char) (h : ∀ c ∈ a, ¬(c = ':')) :
    takeUntilColon a = a := by
  induction a with
  | nil => rfl
  | cons c cs ih =>
    rw [takeUntilColon, if_neg (h c (by simp)), ih (fun x hx => h x (by simp [hx]))]

theorem takeUntilColon_append (a r : List Char) (h : ∀ c ∈ a, ¬(c = ':')) :
    takeUntilColon (a ++ ':' :: r) = a := by
  induction a with
  | nil => rw [List.nil_append, takeUntilColon, if_pos rfl]
  | cons c cs ih =>
    rw [List.cons_append, takeUntilColon, if_neg (h c (by simp)),
      ih (fun x hx => h x (by simp [hx]))]

/-! ### `get_me` path lemmas -/

theorem storeWF_parts (st : Store) (h : storeWF st = true) :
    uniqueBy (fun u : User => u.id) st.users = true ∧
    uniqueBy (fun u : User => u.email) st.users = true ∧
    uniqueBy (fun t : Task => t.id) st.tasks = true := by
  simpa [storeWF, Bool.and_eq_true, and_assoc] using h

theorem stem_data_eq : fakeTokenStem.data = 'f' :: "ake-token-for-user-".data := rfl

theorem stem_token_ne_empty (x : String) : ¬(fakeTokenStem ++ x = "") := by
  intro h
  have hd : fakeTokenStem.data ++ x.data = [] := by
    rw [← String.data_append, h]
  have h1 := (List.append_eq_nil.mp hd).1
  exact absurd h1 (by decide)

theorem stem_token_starts (x : String) :
    listPre fakeTokenStem.data (fakeTokenStem ++ x).data = true := by
  rw [String.data_append]
  exact listPre_append_self fakeTokenStem.data x.data

theorem intReprChars_ne_f (i : Int) : ∀ c ∈ intReprChars i, ¬('f' = c) := by
  intro c hc
  rcases (intReprChars_spec i).2 c hc with hd | rfl
  · intro hbad
    exact (decChar_props c hd).2.2.1 hbad.symm
  · decide

theorem intReprChars_ne_colon (i : Int) : ∀ c ∈ intReprChars i, ¬(c = ':') := by
  intro c hc
  rcases (intReprChars_spec i).2 c hc with hd | rfl
  · exact (decChar_props c hd).2.2.2.1
  · decide

/-- Parsing the canonical token `stem ++ str(i)` yields `i`. -/
theorem token_parse_plain (i : Int) :
    pyInt (String.mk (takeUntilColon
      (removeAll fakeTokenStem.data (fakeTokenStem ++ intRepr i).data))) = some i := by
  rw [String.data_append]
  have hdata : (intRepr i).data = intReprChars i := rfl
  rw [hdata, stem_data_eq, removeAll_stem,
    removeAll_eq_self _ _ _ (intReprChars_ne_f i),
    takeUntilColon_no_colon _ (intReprChars_ne_colon i)]
  exact pyInt_intRepr i

/-- Parsing `stem ++ str(i) ++ ":" ++ anything` also yields `i`: the colon cuts
off the tail before `int(...)` is applied. -/
theorem token_parse_colon (i : Int) (rest : String) :
    pyInt (String.mk (takeUntilColon
      (removeAll fakeTokenStem.data
        (fakeTokenStem ++ intRepr i ++ ":" ++ rest).data))) = some i := by
  have hdata : (fakeTokenStem ++ intRepr i ++ ":" ++ rest).data =
      fakeTokenStem.data ++ (intReprChars i ++ ':' :: rest.data) := by
    simp only [String.data_append, List.append_assoc]
    rfl
  rw [hdata, stem_data_eq, removeAll_stem,
    removeAll_append_head_free _ _ _ _ (intReprChars_ne_f i),
    removeAll_cons_head_ne _ _ _ _ (by decide : ¬('f' = ':')),
    takeUntilColon_append _ _ (intReprChars_ne_colon i)]
  exact pyInt_intRepr i

/-- Unfolds `get_me` on a well-formed-looking token down to the user lookup. -/
theorem get_me_core (st : Store) (t : String) (i : Int)
    (hne : ¬(t = ""))
    (hpre : listPre fakeTokenStem.data t.data = true)
    (hparse : pyInt (String.mk (takeUntilColon (removeAll fakeTokenStem.data t.data))) = some i) :
    get_me st (some t) =
      match scalarOneOrNone (st.users.filter (fun u => u.id = i)) with
      | .error e => .error e
      | .ok none => .error ⟨404, "User not found."⟩
      | .ok (some user) =>
        .ok ⟨user.id, user.email, user.full_name, user.is_active⟩ := by
  simp only [get_me, hne, hpre, hparse, decide_False, Bool.not_true, Bool.or_false,
    if_false, decide_eq_false hne]
  rfl

theorem get_me_malformed (st : Store) (t : String)
    (hne : ¬(t = ""))
    (hpre : listPre fakeTokenStem.data t.data = true)
    (hparse : pyInt (String.mk (takeUntilColon (removeAll fakeTokenStem.data t.data))) = none) :
    get_me st (some t) = .error ⟨401, "Malformed token"⟩ := by
  simp only [get_me, hne, hpre, hparse, decide_eq_false hne, Bool.not_true, Bool.or_false]
  rfl

theorem get_me_bad_stem (st : Store) (t : String)
    (hpre : listPre fakeTokenStem.data t.data = false) :
    get_me st (some t) = .error ⟨401, "Invalid/missing token"⟩ := by
  simp only [get_me, hpre, Bool.not_false, Bool.or_true]
  rfl

/-- `get_me` on a parsed id resolves through the (unique) user with that id. -/
theorem get_me_found (st : Store) (t : String) (i : Int) (u : User)
    (hw : storeWF st = true) (hu : u ∈ st.users) (hid : u.id = i)
    (hne : ¬(t = ""))
    (hpre : listPre fakeTokenStem.data t.data = true)
    (hparse : pyInt (String.mk (takeUntilColon (removeAll fakeTokenStem.data t.data))) = some i) :
    get_me st (some t) = .ok ⟨u.id, u.email, u.full_name, u.is_active⟩ := by
  rw [get_me_core st t i hne hpre hparse,
    uniqueBy_filter_key (fun u : User => u.id) i st.users u (storeWF_parts st hw).1 hu hid,
    scalarOneOrNone_single]

/-- `get_me` on a parsed id with no matching user yields 404. -/
theorem get_me_no_user (st : Store) (t : String) (i : Int)
    (hnouser : ∀ u ∈ st.users, ¬(u.id = i))
    (hne : ¬(t = ""))
    (hpre : listPre fakeTokenStem.data t.data = true)
    (hparse : pyInt (String.mk (takeUntilColon (removeAll fakeTokenStem.data t.data))) = some i) :
    get_me st (some t) = .error ⟨404, "User not found."⟩ := by
  rw [get_me_core st t i hne hpre hparse,
    filter_eq_nil_of_none _ _ (fun u hu => by simpa using hnouser u hu),
    scalarOneOrNone_nil]

/-! ### Store lookup lemmas -/

theorem users_filter_email (st : Store) (v : String) (u : User)
    (hu : uniqueBy (fun x : User => x.email) st.users = true)
    (hm : u ∈ st.users) (hv : u.email = v) :
    st.users.filter (fun x => x.email = v) = [u] :=
  uniqueBy_filter_key (fun x : User => x.email) v st.users u hu hm hv

theorem users_filter_email_nil (st : Store) (v : String)
    (h : ∀ u ∈ st.users, ¬(u.email = v)) :
    st.users.filter (fun x => x.email = v) = [] :=
  filter_eq_nil_of_none _ _ (fun u hu => by simpa using h u hu)

theorem users_filter_id (st : Store) (i : Int) (u : User)
    (hu : uniqueBy (fun x : User => x.id) st.users = true)
    (hm : u ∈ st.users) (hv : u.id = i) :
    st.users.filter (fun x => x.id = i) = [u] :=
  uniqueBy_filter_key (fun x : User => x.id) i st.users u hu hm hv

theorem users_filter_id_nil (st : Store) (i : Int)
    (h : ∀ u ∈ st.users, ¬(u.id = i)) :
    st.users.filter (fun x => x.id = i) = [] :=
  filter_eq_nil_of_none _ _ (fun u hu => by simpa using h u hu)

theorem tasks_filter_id (st : Store) (i : Int) (t : Task)
    (hu : uniqueBy (fun x : Task => x.id) st.tasks = true)
    (hm : t ∈ st.tasks) (hv : t.id = i) :
    st.tasks.filter (fun x => x.id = i) = [t] :=
  uniqueBy_filter_key (fun x : Task => x.id) i st.tasks t hu hm hv

theorem tasks_filter_id_nil (st : Store) (i : Int)
    (h : ∀ t ∈ st.tasks, ¬(t.id = i)) :
    st.tasks.filter (fun x => x.id = i) = [] :=
  filter_eq_nil_of_none _ _ (fun t ht => by simpa using h t ht)

theorem users_any_id (st : Store) (i : Int) (u : User) (hm : u ∈ st.users)
    (hv : u.id = i) : (st.users.any fun x => x.id = i) = true :=
  List.any_eq_true.mpr ⟨u, hm, by simpa using hv⟩

theorem users_any_email (st : Store) (v : String) (u : User) (hm : u ∈ st.users)
    (hv : u.email = v) : (st.users.any fun x => x.email = v) = true :=
  List.any_eq_true.mpr ⟨u, hm, by simpa using hv⟩

theorem users_any_email_false (st : Store) (v : String)
    (h : ∀ u ∈ st.users, ¬(u.email = v)) :
    (st.users.any fun x => x.email = v) = false := by
  by_contra hbad
  rw [Bool.not_eq_false, List.any_eq_true] at hbad
  obtain ⟨x, hx, hxx⟩ := hbad
  exact h x hx (by simpa using hxx)

theorem filter_eq_self_of_all {α : Type} (p : α → Bool) (l : List α)
    (h : ∀ a ∈ l, p a = true) : l.filter p = l := by
  induction l with
  | nil => rfl
  | cons b bl ih =>
    rw [List.filter_cons, if_pos (h b (by simp)), ih (fun a ha => h a (by simp [ha]))]

/-! ### `update_task` and `list_tasks` characterization -/

theorem update_task_success (st : Store) (task_id : Int) (task_in : TaskUpdate)
    (now : Nat) (task : Task) (tNew sNew : String)
    (hf : st.tasks.filter (fun x => x.id = task_id) = [task])
    (hT : (applyTaskUpdate task task_in).title = some tNew)
    (hS : (applyTaskUpdate task task_in).status = some sNew)
    (hFK : assigneeFKOk st (applyTaskUpdate task task_in).assignee_id = true) :
    update_task st task_id task_in now =
      (let t1 : Task := { task with
         title := tNew,
         description := (applyTaskUpdate task task_in).description,
         due_date := (applyTaskUpdate task task_in).due_date,
         status := sNew,
         assignee_id := (applyTaskUpdate task task_in).assignee_id }
       if t1 = task then (.ok (task_to_read task), st)
       else
         (.ok (task_to_read { t1 with updated_at := now }),
          { st with
            tasks := st.tasks.map
              (fun x => if x.id = task_id then { t1 with updated_at := now } else x) })) := by
  simp only [update_task, hf, scalarOneOrNone_single, hT, hS, hFK, if_true]

/-- The spec-side row predicate of the (amended) C4 claim: a supplied non-empty
status must match, a supplied assignee must match, a supplied due-date bound
requires a non-null due date on or before it; a status supplied as the empty
string constrains nothing. -/
def specMatches (status : Option String) (assignee_id : Option Int)
    (due_before : Option Nat) (t : Task) : Prop :=
  (∀ s, status = some s → ¬(s = "") → t.status = s) ∧
  (∀ a, assignee_id = some a → t.assignee_id = some a) ∧
  (∀ d, due_before = some d → ∃ dd, t.due_date = some dd ∧ dd ≤ d)

theorem statusFilterB_iff (so : Option String) (t : Task) :
    statusFilterB so t = true ↔ (∀ s, so = some s → ¬(s = "") → t.status = s) := by
  cases so with
  | none => simp [statusFilterB]
  | some s =>
    by_cases hs : s = ""
    · subst hs
      simp [statusFilterB]
    · simp [statusFilterB, if_neg hs, hs]

theorem assigneeFilterB_iff (ao : Option Int) (t : Task) :
    assigneeFilterB ao t = true ↔ (∀ a, ao = some a → t.assignee_id = some a) := by
  cases ao with
  | none => simp [assigneeFilterB]
  | some a => simp [assigneeFilterB]

theorem dueFilterB_iff (dob : Option Nat) (t : Task) :
    dueFilterB dob t = true ↔
      (∀ d, dob = some d → ∃ dd, t.due_date = some dd ∧ dd ≤ d) := by
  cases dob with
  | none => simp [dueFilterB]
  | some d =>
    cases hdd : t.due_date with
    | none => simp [dueFilterB, hdd]
    | some dd => simp [dueFilterB, hdd]

theorem taskMatches_iff (so : Option String) (ao : Option Int) (dob : Option Nat)
    (t : Task) : taskMatches so ao dob t = true ↔ specMatches so ao dob t := by
  unfold taskMatches specMatches
  rw [Bool.and_eq_true, Bool.and_eq_true, statusFilterB_iff, assigneeFilterB_iff,
    dueFilterB_iff, and_assoc]

theorem taskMatches_none (t : Task) : taskMatches none none none t = true := rfl

/-! ### Concrete fixtures used by witnesses and counterexamples -/

/-- Example user with id 1. -/
def exUser1 : User := ⟨1, "alice@example.com", some "Alice", hash_password "secret1", true⟩

/-- Example user with id 5. -/
def exUser5 : User := ⟨5, "bob@example.com", none, hash_password "secret5", true⟩

/-- Example task with id 1, status `done`, a description and a due date. -/
def exTask1 : Task := ⟨1, "Write spec", some "keep", some 10, "done", 1, none, 0, 0⟩

/-- Example store satisfying the database invariants. -/
def exStore : Store := ⟨[exUser1, exUser5], [exTask1], 6, 2⟩

/-! ### Claims -/

/-- C1 — Round-trip of authentication: for every stored user, `login` with
that user's email and correct password (one whose hash equals the stored hash)
returns the bearer token `fake-token-for-user-<id>`, and `get_me` on that token
returns the public view of the same user; `login` with a wrong password or an
email not present in the store fails with 401 Unauthorized. -/
theorem C1_auth_roundtrip (st : Store) (hw : storeWF st = true) :
    (∀ u ∈ st.users, ∀ login_in : UserLogin, login_in.email = u.email →
      hash_password login_in.password = u.hashed_password →
      login st login_in = .ok ⟨fakeTokenStem ++ intRepr u.id, "bearer"⟩ ∧
      get_me st (some (fakeTokenStem ++ intRepr u.id)) =
        .ok ⟨u.id, u.email, u.full_name, u.is_active⟩) ∧
    (∀ u ∈ st.users, ∀ login_in : UserLogin, login_in.email = u.email →
      ¬(hash_password login_in.password = u.hashed_password) →
      login st login_in = .error ⟨401, "Invalid credentials."⟩) ∧
    (∀ login_in : UserLogin, (∀ u ∈ st.users, ¬(u.email = login_in.email)) →
      login st login_in = .error ⟨401, "Invalid credentials."⟩) := by
  have hem := (storeWF_parts st hw).2.1
  refine ⟨?_, ?_, ?_⟩
  · intro u hu login_in he hpw
    have hf := users_filter_email st login_in.email u hem hu he.symm
    constructor
    · simp only [login, hf, scalarOneOrNone_single, verify_password, hpw, decide_True,
        if_true]
    · exact get_me_found st _ u.id u hw hu rfl (stem_token_ne_empty _)
        (stem_token_starts _) (token_parse_plain u.id)
  · intro u hu login_in he hpw
    have hf := users_filter_email st login_in.email u hem hu he.symm
    simp only [login, hf, scalarOneOrNone_single, verify_password,
      decide_eq_false hpw]
    simp
  · intro login_in h
    have hf := users_filter_email_nil st login_in.email h
    simp only [login, hf, scalarOneOrNone_nil]

/-- Witness for C1 at a concrete store: correct password round-trips, wrong
password and unknown email fail. -/
theorem C1_witness :
    (login exStore ⟨"alice@example.com", "secret1"⟩ =
       .ok ⟨fakeTokenStem ++ intRepr 1, "bearer"⟩ ∧
     get_me exStore (some (fakeTokenStem ++ intRepr 1)) =
       .ok ⟨1, "alice@example.com", some "Alice", true⟩) ∧
    login exStore ⟨"alice@example.com", "wrongpw"⟩ =
      .error ⟨401, "Invalid credentials."⟩ ∧
    login exStore ⟨"nobody@example.com", "secret1"⟩ =
      .error ⟨401, "Invalid credentials."⟩ := by
  obtain ⟨h1, h2, h3⟩ := C1_auth_roundtrip exStore (by decide)
  exact ⟨h1 exUser1 (by decide) ⟨"alice@example.com", "secret1"⟩ rfl (by decide),
    h2 exUser1 (by decide) ⟨"alice@example.com", "wrongpw"⟩ rfl (by decide),
    h3 ⟨"nobody@example.com", "secret1"⟩ (by decide)⟩

/-- C2 — Signup with an email already belonging to a stored user fails with
the conflict error (HTTP 400) and leaves the store unchanged, for every
well-formed store state; both detection paths — the explicit pre-insert lookup
and the uniqueness-violation caught at commit time — produce a 400 conflict
error. -/
theorem C2_signup_conflict (st : Store) (user_in : UserSignup) (hw : storeWF st = true)
    (u : User) (hu : u ∈ st.users) (he : u.email = user_in.email) :
    signup st user_in = (.error ⟨400, "Email already registered."⟩, st) ∧
    (∀ u2 : User, u2.email = user_in.email →
      insertUserCommit st u2 = .error ⟨400, "Email already in use."⟩) := by
  have hem := (storeWF_parts st hw).2.1
  have hf := users_filter_email st user_in.email u hem hu he
  refine ⟨?_, ?_⟩
  · simp only [signup, hf, scalarOneOrNone_single]
  · intro u2 he2
    have hany := users_any_email st u2.email u hu (he.trans he2.symm)
    simp only [insertUserCommit, hany, if_true]

/-- Witness for C2: a duplicate-email signup fails with 400 and both conflict
paths return 400 at a concrete store. -/
theorem C2_witness :
    signup exStore ⟨"alice@example.com", "another1", none⟩ =
      (.error ⟨400, "Email already registered."⟩, exStore) ∧
    insertUserCommit exStore ⟨9, "alice@example.com", none, hash_password "x", true⟩ =
      .error ⟨400, "Email already in use."⟩ := by
  obtain ⟨h1, h2⟩ := C2_signup_conflict exStore ⟨"alice@example.com", "another1", none⟩
    (by decide) exUser1 (by decide) rfl
  exact ⟨h1, h2 ⟨9, "alice@example.com", none, hash_password "x", true⟩ rfl⟩

/-- C8 — Signup with an email not present in the store succeeds and returns
the created user's public view — exactly id, email, full name and
`is_active = true`; the returned `UserRead` has no password-hash field, so the
stored hash is never part of the view. The new user is appended to the store. -/
theorem C8_signup_fresh (st : Store) (user_in : UserSignup)
    (hfresh : ∀ u ∈ st.users, ¬(u.email = user_in.email)) :
    signup st user_in =
      (.ok { id := st.nextUserId, email := user_in.email,
             full_name := user_in.full_name, is_active := true },
       { st with
         users := st.users ++
           [{ id := st.nextUserId, email := user_in.email,
              full_name := user_in.full_name,
              hashed_password := hash_password user_in.password, is_active := true }],
         nextUserId := st.nextUserId + 1 }) := by
  have hf := users_filter_email_nil st user_in.email hfresh
  have hany := users_any_email_false st user_in.email hfresh
  simp only [signup, hf, scalarOneOrNone_nil, insertUserCommit, hany]
  simp

/-- Witness for C8 at a concrete store and fresh email. -/
theorem C8_witness :
    signup exStore ⟨"carol@example.com", "hunter2", some "Carol"⟩ =
      (.ok ⟨6, "carol@example.com", some "Carol", true⟩,
       ⟨[exUser1, exUser5,
         ⟨6, "carol@example.com", some "Carol", hash_password "hunter2", true⟩],
        [exTask1], 7, 2⟩) := by
  have h := C8_signup_fresh exStore ⟨"carol@example.com", "hunter2", some "Carol"⟩
    (by decide)
  exact h

/-- Counterexample to **C4** as stated: with the filter `status = ""` supplied,
`list_tasks` returns a task whose status is `"done"`, not the empty string —
the conjunction-of-supplied-predicates reading fails because `if status:`
(Python truthiness) silently drops an empty-string status filter. -/
theorem C4_counterexample :
    (list_tasks exStore (some "") none none).tasks = [task_to_read exTask1] ∧
    (list_tasks exStore (some "") none none).total = 1 ∧
    ¬(exTask1.status = "") := by
  refine ⟨by decide, by decide, by decide⟩

/-- C4 (amended) — `list_tasks` returns exactly the tasks satisfying the
conjunction of the supplied predicates, except that a status supplied as the
empty string is ignored (Python truthiness) rather than being matched; the
count equals the number of returned tasks; no filters returns every task; and
filtering by `status="done"` returns exactly the done tasks. -/
theorem C4_list_filters (st : Store) (status : Option String)
    (assignee_id : Option Int) (due_before : Option Nat) :
    (list_tasks st status assignee_id due_before).total =
      (list_tasks st status assignee_id due_before).tasks.length ∧
    (∀ r : TaskRead, r ∈ (list_tasks st status assignee_id due_before).tasks ↔
      ∃ t ∈ st.tasks, specMatches status assignee_id due_before t ∧
        r = task_to_read t) ∧
    (list_tasks st none none none).tasks = st.tasks.map task_to_read ∧
    (∀ r : TaskRead, r ∈ (list_tasks st (some "done") none none).tasks ↔
      ∃ t ∈ st.tasks, t.status = "done" ∧ r = task_to_read t) := by
  refine ⟨?_, ?_, ?_, ?_⟩
  · simp [list_tasks]
  · intro r
    simp only [list_tasks, List.mem_map, List.mem_filter]
    constructor
    · rintro ⟨t, ⟨ht, hm⟩, rfl⟩
      exact ⟨t, ht, (taskMatches_iff _ _ _ t).mp hm, rfl⟩
    · rintro ⟨t, ht, hm, rfl⟩
      exact ⟨t, ⟨ht, (taskMatches_iff _ _ _ t).mpr hm⟩, rfl⟩
  · simp only [list_tasks]
    rw [filter_eq_self_of_all _ _ (fun t _ => taskMatches_none t)]
  · intro r
    simp only [list_tasks, List.mem_map, List.mem_filter]
    constructor
    · rintro ⟨t, ⟨ht, hm⟩, rfl⟩
      obtain ⟨h1, -, -⟩ := (taskMatches_iff _ _ _ t).mp hm
      exact ⟨t, ht, h1 "done" rfl (by decide), rfl⟩
    · rintro ⟨t, ht, hd, rfl⟩
      refine ⟨t, ⟨ht, (taskMatches_iff _ _ _ t).mpr ⟨?_, ?_, ?_⟩⟩, rfl⟩
      · rintro s hs -
        cases hs
        exact hd
      · rintro a hbad
        cases hbad
      · rintro d hbad
        cases hbad

/-- Witness for C4 at a concrete store: the `done` filter keeps the done task
and the unfiltered listing returns everything. -/
theorem C4_witness :
    task_to_read exTask1 ∈ (list_tasks exStore (some "done") none none).tasks ∧
    (list_tasks exStore none none none).tasks = [task_to_read exTask1] := by
  obtain ⟨-, -, h3, h4⟩ := C4_list_filters exStore (some "done") none none
  exact ⟨(h4 (task_to_read exTask1)).mpr ⟨exTask1, by decide, by decide, rfl⟩,
    h3.trans (by decide)⟩

/-- C5 — `update_status` validates the value before looking the task up:
any value outside `todo`/`in_progress`/`done` yields 400 with the store (hence
every task) unchanged, even for a non-existent id; a valid value on a
non-existent id yields 404 with the store unchanged. -/
theorem C5_update_status_validation (st : Store) (task_id : Int)
    (new_status : String) (now : Nat) :
    (¬(new_status = "todo" ∨ new_status = "in_progress" ∨ new_status = "done") →
      update_status st task_id new_status now =
        (.error ⟨400, "Invalid status value."⟩, st)) ∧
    ((new_status = "todo" ∨ new_status = "in_progress" ∨ new_status = "done") →
      (∀ t ∈ st.tasks, ¬(t.id = task_id)) →
      update_status st task_id new_status now =
        (.error ⟨404, "Task not found."⟩, st)) := by
  constructor
  · intro h
    push_neg at h
    obtain ⟨h1, h2, h3⟩ := h
    simp only [update_status, decide_eq_false h1, decide_eq_false h2,
      decide_eq_false h3, Bool.or_self, Bool.or_false, Bool.not_false, if_true]
  · intro hvalid hmiss
    have hcond : (new_status = "todo" || new_status = "in_progress"
        || new_status = "done") = true := by
      rcases hvalid with h | h | h <;> simp [h]
    have hf := tasks_filter_id_nil st task_id hmiss
    simp only [update_status, hcond, Bool.not_true, if_false, hf, scalarOneOrNone_nil]
    simp

/-- Witness for C5: a garbage status fails 400 even on a missing id, and a
valid status on a missing id fails 404, at a concrete store. -/
theorem C5_witness :
    update_status exStore 77 "zzz" 9 =
      (.error ⟨400, "Invalid status value."⟩, exStore) ∧
    update_status exStore 77 "done" 9 =
      (.error ⟨404, "Task not found."⟩, exStore) := by
  exact ⟨(C5_update_status_validation exStore 77 "zzz" 9).1 (by decide),
    (C5_update_status_validation exStore 77 "done" 9).2 (Or.inr (Or.inr rfl)) (by decide)⟩

/-- C6 — `assign_task` fails 404 when the task is missing, fails 404 when
the task exists but the assignee user does not (store, hence the task,
unchanged), and otherwise sets the task's assignee to the given user id, both
in the returned view and in the stored row. -/
theorem C6_assign_validation (st : Store) (task_id assignee_id : Int) (now : Nat)
    (hw : storeWF st = true) :
    ((∀ t ∈ st.tasks, ¬(t.id = task_id)) →
      assign_task st task_id assignee_id now = (.error ⟨404, "Task not found."⟩, st)) ∧
    (∀ task ∈ st.tasks, task.id = task_id →
      (∀ u ∈ st.users, ¬(u.id = assignee_id)) →
      assign_task st task_id assignee_id now =
        (.error ⟨404, "Assignee user not found."⟩, st)) ∧
    (∀ task ∈ st.tasks, task.id = task_id → ∀ u ∈ st.users, u.id = assignee_id →
      ∃ r st2, assign_task st task_id assignee_id now = (.ok r, st2) ∧
        r.assignee_id = some assignee_id ∧
        (st2.tasks.filter (fun x => x.id = task_id)).map task_to_read = [r]) := by
  have hidT := (storeWF_parts st hw).2.2
  have hidU := (storeWF_parts st hw).1
  refine ⟨?_, ?_, ?_⟩
  · intro hmiss
    have hf := tasks_filter_id_nil st task_id hmiss
    simp only [assign_task, hf, scalarOneOrNone_nil]
  · intro task ht hid hmiss
    have hf := tasks_filter_id st task_id task hidT ht hid
    have hfu := users_filter_id_nil st assignee_id hmiss
    simp only [assign_task, hf, scalarOneOrNone_single, hfu, scalarOneOrNone_nil]
  · intro task ht hid u hu huid
    have hf := tasks_filter_id st task_id task hidT ht hid
    have hfu := users_filter_id st assignee_id u hidU hu huid
    by_cases hsame : ({ task with assignee_id := some assignee_id } : Task) = task
    · refine ⟨task_to_read task, st, ?_, ?_, ?_⟩
      · simp only [assign_task, hf, scalarOneOrNone_single, hfu, if_pos hsame]
      · have := congrArg Task.assignee_id hsame
        simpa [task_to_read] using this.symm
      · rw [hf]
        rfl
    · refine ⟨task_to_read { task with assignee_id := some assignee_id, updated_at := now },
        { st with
          tasks := st.tasks.map (fun x => if x.id = task_id
            then { task with assignee_id := some assignee_id, updated_at := now } else x) },
        ?_, ?_, ?_⟩
      · simp only [assign_task, hf, scalarOneOrNone_single, hfu, if_neg hsame]
      · simp [task_to_read]
      · rw [replace_filter_key (fun x : Task => x.id) task_id
          { task with assignee_id := some assignee_id, updated_at := now }
          _ st.tasks task (fun x => rfl) hidT ht hid (by simpa using hid)]
        rfl

/-- Witness for C6 at a concrete store: missing task 404, missing assignee 404,
and a successful assignment to user 5. -/
theorem C6_witness :
    assign_task exStore 77 5 9 = (.error ⟨404, "Task not found."⟩, exStore) ∧
    assign_task exStore 1 77 9 = (.error ⟨404, "Assignee user not found."⟩, exStore) ∧
    ∃ r st2, assign_task exStore 1 5 9 = (.ok r, st2) ∧ r.assignee_id = some 5 := by
  obtain ⟨h1, h2, h3⟩ := C6_assign_validation exStore 1 5 9 (by decide)
  refine ⟨(C6_assign_validation exStore 77 5 9 (by decide)).1 (by decide),
    (C6_assign_validation exStore 1 77 9 (by decide)).2.1 exTask1 (by decide) rfl (by decide),
    ?_⟩
  obtain ⟨r, st2, heq, hr, -⟩ := h3 exTask1 (by decide) rfl exUser5 (by decide) rfl
  exact ⟨r, st2, heq, hr⟩

/-- C7 — A successful `delete_task` removes the record from the store, so a
subsequent `get_task` on the same id fails 404; `delete_task` on a missing id
fails 404. -/
theorem C7_delete_get (st : Store) (task_id : Int) (hw : storeWF st = true) :
    (∀ task ∈ st.tasks, task.id = task_id →
      delete_task st task_id =
        (.ok ⟨"Task deleted."⟩,
         { st with tasks := st.tasks.filter (fun t => !(t.id = task_id)) }) ∧
      get_task { st with tasks := st.tasks.filter (fun t => !(t.id = task_id)) }
          task_id = .error ⟨404, "Task not found."⟩) ∧
    ((∀ t ∈ st.tasks, ¬(t.id = task_id)) →
      delete_task st task_id = (.error ⟨404, "Task not found"⟩, st)) := by
  have hidT := (storeWF_parts st hw).2.2
  constructor
  · intro task ht hid
    have hf := tasks_filter_id st task_id task hidT ht hid
    constructor
    · simp only [delete_task, hf, scalarOneOrNone_single]
    · have hnil : (st.tasks.filter (fun t => !(t.id = task_id))).filter
          (fun x => x.id = task_id) = [] := by
        refine filter_eq_nil_of_none _ _ (fun x hx => ?_)
        have := (List.mem_filter.mp hx).2
        simpa using this
      simp only [get_task, hnil, scalarOneOrNone_nil]
  · intro hmiss
    have hf := tasks_filter_id_nil st task_id hmiss
    simp only [delete_task, hf, scalarOneOrNone_nil]

/-- Witness for C7: deleting task 1 then getting it fails 404; deleting a
missing id fails 404. -/
theorem C7_witness :
    delete_task exStore 1 = (.ok ⟨"Task deleted."⟩, ⟨[exUser1, exUser5], [], 6, 2⟩) ∧
    get_task ⟨[exUser1, exUser5], [], 6, 2⟩ 1 = .error ⟨404, "Task not found."⟩ ∧
    delete_task exStore 77 = (.error ⟨404, "Task not found"⟩, exStore) := by
  obtain ⟨h1, h2⟩ := C7_delete_get exStore 1 (by decide)
  obtain ⟨hd, hg⟩ := h1 exTask1 (by decide) rfl
  exact ⟨hd, hg, (C7_delete_get exStore 77 (by decide)).2 (by decide)⟩

/-- Counterexample to **C3** as stated: a `description` field explicitly
supplied as `null` is *not* left untouched — `model_dump(exclude_unset=True)`
keeps explicitly-null fields, so the stored `some "keep"` is overwritten with
`none` (and the returned view shows `none`). -/
theorem C3_counterexample :
    update_task exStore 1 ⟨none, some none, none, none, none⟩ 99 =
      (.ok ⟨1, "Write spec", none, some 10, "done", 1, none, 0, 99⟩,
       ⟨[exUser1, exUser5],
        [⟨1, "Write spec", none, some 10, "done", 1, none, 0, 99⟩], 6, 2⟩) ∧
    exTask1.description = some "keep" :=
  ⟨rfl, rfl⟩

/-- C3 (amended) — `update_task` applies exactly the fields present in the
request: unset fields keep their previous values, while a field explicitly
supplied as `null` is applied too, overwriting the stored value with null
rather than being ignored (the hypotheses exclude nulling the non-nullable
`title`/`status` columns, where the commit fails with 400 instead); the
updated timestamp is refreshed whenever the applied fields change the row
(otherwise nothing changes at all); updating a missing id fails 404. -/
theorem C3_update_semantics (st : Store) (task_id : Int) (task_in : TaskUpdate)
    (now : Nat) (hw : storeWF st = true) :
    (∀ task ∈ st.tasks, task.id = task_id →
      ¬(task_in.title = some none) → ¬(task_in.status = some none) →
      assigneeFKOk st (task_in.assignee_id.getD task.assignee_id) = true →
      ∃ r st2, update_task st task_id task_in now = (.ok r, st2) ∧
        r.id = task.id ∧ r.creator_id = task.creator_id ∧
        r.created_at = task.created_at ∧
        r.title = (match task_in.title with
                   | some (some v) => v
                   | _ => task.title) ∧
        r.status = (match task_in.status with
                    | some (some v) => v
                    | _ => task.status) ∧
        r.description = (match task_in.description with
                         | some v => v
                         | none => task.description) ∧
        r.due_date = (match task_in.due_date with
                      | some v => v
                      | none => task.due_date) ∧
        r.assignee_id = (match task_in.assignee_id with
                         | some v => v
                         | none => task.assignee_id) ∧
        (r.updated_at = now ∨ (r = task_to_read task ∧ st2 = st)) ∧
        (st2.tasks.filter (fun x => x.id = task_id)).map task_to_read = [r]) ∧
    ((∀ t ∈ st.tasks, ¬(t.id = task_id)) →
      update_task st task_id task_in now = (.error ⟨404, "Task not found."⟩, st)) := by
  have hidT := (storeWF_parts st hw).2.2
  constructor
  · intro task ht hid hT hS hFK
    have hf := tasks_filter_id st task_id task hidT ht hid
    have hrowT : (applyTaskUpdate task task_in).title =
        some (match task_in.title with | some (some v) => v | _ => task.title) := by
      cases htt : task_in.title with
      | none => simp [applyTaskUpdate, htt]
      | some o =>
        cases o with
        | none => exact absurd htt hT
        | some v => simp [applyTaskUpdate, htt]
    have hrowS : (applyTaskUpdate task task_in).status =
        some (match task_in.status with | some (some v) => v | _ => task.status) := by
      cases hts : task_in.status with
      | none => simp [applyTaskUpdate, hts]
      | some o =>
        cases o with
        | none => exact absurd hts hS
        | some v => simp [applyTaskUpdate, hts]
    have hD : (applyTaskUpdate task task_in).description =
        (match task_in.description with | some v => v | none => task.description) := by
      cases hx : task_in.description <;> simp [applyTaskUpdate, hx]
    have hDue : (applyTaskUpdate task task_in).due_date =
        (match task_in.due_date with | some v => v | none => task.due_date) := by
      cases hx : task_in.due_date <;> simp [applyTaskUpdate, hx]
    have hA : (applyTaskUpdate task task_in).assignee_id =
        (match task_in.assignee_id with | some v => v | none => task.assignee_id) := by
      cases hx : task_in.assignee_id <;> simp [applyTaskUpdate, hx]
    have hsucc := update_task_success st task_id task_in now task _ _ hf hrowT hrowS hFK
    set t1 : Task := { task with
      title := (match task_in.title with | some (some v) => v | _ => task.title),
      description := (applyTaskUpdate task task_in).description,
      due_date := (applyTaskUpdate task task_in).due_date,
      status := (match task_in.status with | some (some v) => v | _ => task.status),
      assignee_id := (applyTaskUpdate task task_in).assignee_id } with ht1
    by_cases hsame : t1 = task
    · rw [hsucc, if_pos hsame]
      refine ⟨task_to_read task, st, rfl, rfl, rfl, rfl, ?_, ?_, ?_, ?_, ?_,
        Or.inr ⟨rfl, rfl⟩, ?_⟩
      · exact (congrArg Task.title hsame).symm
      · exact (congrArg Task.status hsame).symm
      · exact (congrArg Task.description hsame).symm.trans hD
      · exact (congrArg Task.due_date hsame).symm.trans hDue
      · exact (congrArg Task.assignee_id hsame).symm.trans hA
      · rw [hf]
        rfl
    · rw [hsucc, if_neg hsame]
      refine ⟨task_to_read { t1 with updated_at := now }, _, rfl, rfl, rfl, rfl,
        rfl, rfl, hD, hDue, hA, Or.inl rfl, ?_⟩
      rw [replace_filter_key (fun x : Task => x.id) task_id { t1 with updated_at := now }
        _ st.tasks task (fun x => rfl) hidT ht hid (by simpa [ht1] using hid)]
      rfl
  · intro hmiss
    have hf := tasks_filter_id_nil st task_id hmiss
    simp only [update_task, hf, scalarOneOrNone_nil]

/-- Witness for the amended C3: a mixed update (new title, explicit-null
description, unset due date and status, new assignee) at a concrete store. -/
theorem C3_witness :
    ∃ r st2, update_task exStore 1 ⟨some (some "New title"), some none, none, none,
        some (some 5)⟩ 99 = (.ok r, st2) ∧
      r.title = "New title" ∧ r.description = none ∧ r.due_date = some 10 ∧
      r.status = "done" ∧ r.assignee_id = some 5 ∧
      (r.updated_at = 99 ∨ (r = task_to_read exTask1 ∧ st2 = exStore)) := by
  obtain ⟨h1, -⟩ := C3_update_semantics exStore 1
    ⟨some (some "New title"), some none, none, none, some (some 5)⟩ 99 (by decide)
  obtain ⟨r, st2, heq, -, -, -, hti, hst, hde, hdu, has, hup, -⟩ :=
    h1 exTask1 (by decide) rfl (by decide) (by decide) (by decide)
  exact ⟨r, st2, heq, hti, hde, hdu, hst, has, hup⟩

/-- C9 — Neither `create_task` nor `update_task` validates the status
value: any non-empty string is stored and returned verbatim (so the store can
hold statuses outside `todo`/`in_progress`/`done`); only `update_status`
enforces the three-value restriction. -/
theorem C9_status_not_validated (st : Store) (now : Nat) (hw : storeWF st = true) :
    (∀ task_in : TaskCreate, ¬(task_in.status = "") →
      (st.users.any fun x => x.id = (1 : Int)) = true →
      assigneeFKOk st task_in.assignee_id = true →
      ∃ tsk st2, create_task st task_in now = (.ok (task_to_read tsk), st2) ∧
        tsk.status = task_in.status ∧ st2.tasks = st.tasks ++ [tsk]) ∧
    (∀ task_id : Int, ∀ task ∈ st.tasks, task.id = task_id → ∀ s : String,
      ¬(s = "") → assigneeFKOk st task.assignee_id = true →
      ∃ r st2, update_task st task_id ⟨none, none, none, some (some s), none⟩ now =
          (.ok r, st2) ∧ r.status = s ∧
        (st2.tasks.filter (fun x => x.id = task_id)).map task_to_read = [r]) := by
  have hidT := (storeWF_parts st hw).2.2
  constructor
  · intro task_in hs h1 hFK
    refine ⟨⟨st.nextTaskId, task_in.title, task_in.description, task_in.due_date,
        task_in.status, 1, task_in.assignee_id, now, now⟩,
      ⟨st.users, st.tasks ++ [⟨st.nextTaskId, task_in.title, task_in.description,
        task_in.due_date, task_in.status, 1, task_in.assignee_id, now, now⟩],
        st.nextUserId, st.nextTaskId + 1⟩,
      ?_, rfl, rfl⟩
    simp only [create_task, if_neg hs, h1, hFK, Bool.and_self, if_true]
  · intro task_id task ht hid s hs hFK
    have hf := tasks_filter_id st task_id task hidT ht hid
    have hsucc := update_task_success st task_id ⟨none, none, none, some (some s), none⟩
      now task task.title s hf rfl rfl hFK
    simp only [applyTaskUpdate, Option.getD_some, Option.getD_none] at hsucc
    by_cases hsame : ({ task with status := s } : Task) = task
    · rw [hsucc, if_pos hsame]
      refine ⟨task_to_read task, st, rfl, (congrArg Task.status hsame).symm, ?_⟩
      rw [hf]
      rfl
    · rw [hsucc, if_neg hsame]
      refine ⟨task_to_read { task with status := s, updated_at := now }, _, rfl, rfl, ?_⟩
      rw [replace_filter_key (fun x : Task => x.id) task_id
        { task with status := s, updated_at := now } _ st.tasks task (fun x => rfl)
        hidT ht hid (by simpa using hid)]
      rfl

/-- Witness for C9: creating a task with status `garbage` stores and returns it
verbatim, and so does updating the existing task's status to `garbage`. -/
theorem C9_witness :
    (∃ tsk st2, create_task exStore ⟨"New", none, none, "garbage", none⟩ 42 =
        (.ok (task_to_read tsk), st2) ∧ tsk.status = "garbage" ∧
        st2.tasks = exStore.tasks ++ [tsk]) ∧
    (∃ r st2, update_task exStore 1 ⟨none, none, none, some (some "garbage"), none⟩ 42 =
        (.ok r, st2) ∧ r.status = "garbage") := by
  obtain ⟨h1, h2⟩ := C9_status_not_validated exStore 42 (by decide)
  refine ⟨h1 ⟨"New", none, none, "garbage", none⟩ (by decide) (by decide) (by decide), ?_⟩
  obtain ⟨r, st2, heq, hst, -⟩ := h2 1 exTask1 (by decide) rfl "garbage" (by decide)
    (by decide)
  exact ⟨r, st2, heq, hst⟩

/-- Counterexample to **C10** as stated: the token
`fake-token-for-user-fake-token-for-user-5` starts with the expected stem and
its remainder before the first `:` — `fake-token-for-user-5` — is *not* an
integer, so by the claim it should fail with 401; but Python `str.replace`
removes *every* occurrence of the stem, so `get_me` resolves it to user 5. -/
theorem C10_counterexample :
    listPre fakeTokenStem.data
      ("fake-token-for-user-fake-token-for-user-5").data = true ∧
    pyInt (String.mk (takeUntilColon (List.drop fakeTokenStem.data.length
      ("fake-token-for-user-fake-token-for-user-5").data))) = none ∧
    get_me exStore (some "fake-token-for-user-fake-token-for-user-5") =
      .ok ⟨5, "bob@example.com", none, true⟩ :=
  ⟨rfl, rfl, rfl⟩

theorem colon_token_data (i : Int) (rest : String) :
    (fakeTokenStem ++ intRepr i ++ ":" ++ rest).data =
      fakeTokenStem.data ++ (intReprChars i ++ ':' :: rest.data) := by
  simp only [String.data_append, List.append_assoc]
  rfl

theorem colon_token_ne_empty (i : Int) (rest : String) :
    ¬(fakeTokenStem ++ intRepr i ++ ":" ++ rest = "") := by
  intro h
  have hd : fakeTokenStem.data ++ (intReprChars i ++ ':' :: rest.data) = [] := by
    rw [← colon_token_data i rest, h]
  have h1 := (List.append_eq_nil.mp hd).1
  exact absurd h1 (by decide)

theorem colon_token_starts (i : Int) (rest : String) :
    listPre fakeTokenStem.data (fakeTokenStem ++ intRepr i ++ ":" ++ rest).data = true := by
  rw [colon_token_data i rest]
  exact listPre_append_self _ _

/-- C10 (amended) — `get_me`'s token check is prefix-only, and the embedded
id is the part before the first `:` of the token after deleting *every*
occurrence of `fake-token-for-user-` (Python `str.replace` semantics — see the
counterexample for where this differs from "remainder after the prefix"). Both
`fake-token-for-user-<i>` and `fake-token-for-user-<i>:<anything>` resolve to
user id `i`, then 404 if no such user exists; a token whose post-deletion
pre-colon remainder is not an integer fails 401 `Malformed token`; a token not
starting with the stem fails 401 `Invalid/missing token`. -/
theorem C10_token_scheme (st : Store) (hw : storeWF st = true) :
    (∀ u ∈ st.users,
      get_me st (some (fakeTokenStem ++ intRepr u.id)) =
        .ok ⟨u.id, u.email, u.full_name, u.is_active⟩ ∧
      ∀ rest : String,
        get_me st (some (fakeTokenStem ++ intRepr u.id ++ ":" ++ rest)) =
          .ok ⟨u.id, u.email, u.full_name, u.is_active⟩) ∧
    (∀ i : Int, (∀ u ∈ st.users, ¬(u.id = i)) →
      get_me st (some (fakeTokenStem ++ intRepr i)) =
        .error ⟨404, "User not found."⟩ ∧
      ∀ rest : String,
        get_me st (some (fakeTokenStem ++ intRepr i ++ ":" ++ rest)) =
          .error ⟨404, "User not found."⟩) ∧
    (∀ t : String, ¬(t = "") → listPre fakeTokenStem.data t.data = true →
      pyInt (String.mk (takeUntilColon (removeAll fakeTokenStem.data t.data))) = none →
      get_me st (some t) = .error ⟨401, "Malformed token"⟩) ∧
    (∀ t : String, listPre fakeTokenStem.data t.data = false →
      get_me st (some t) = .error ⟨401, "Invalid/missing token"⟩) := by
  refine ⟨?_, ?_, ?_, ?_⟩
  · intro u hu
    refine ⟨get_me_found st _ u.id u hw hu rfl (stem_token_ne_empty _)
      (stem_token_starts _) (token_parse_plain u.id), fun rest => ?_⟩
    exact get_me_found st _ u.id u hw hu rfl (colon_token_ne_empty u.id rest)
      (colon_token_starts u.id rest) (token_parse_colon u.id rest)
  · intro i hno
    refine ⟨get_me_no_user st _ i hno (stem_token_ne_empty _)
      (stem_token_starts _) (token_parse_plain i), fun rest => ?_⟩
    exact get_me_no_user st _ i hno (colon_token_ne_empty i rest)
      (colon_token_starts i rest) (token_parse_colon i rest)
  · intro t hne hpre hparse
    exact get_me_malformed st t hne hpre hparse
  · intro t hpre
    exact get_me_bad_stem st t hpre

/-- Witness for the amended C10 at a concrete store: plain and colon-suffixed
tokens for user 5, a 404 for an absent id, a malformed remainder, and a token
without the stem. -/
theorem C10_witness :
    get_me exStore (some (fakeTokenStem ++ intRepr 5)) =
      .ok ⟨5, "bob@example.com", none, true⟩ ∧
    get_me exStore (some (fakeTokenStem ++ intRepr 5 ++ ":" ++ "session42")) =
      .ok ⟨5, "bob@example.com", none, true⟩ ∧
    get_me exStore (some (fakeTokenStem ++ intRepr 42)) =
      .error ⟨404, "User not found."⟩ ∧
    get_me exStore (some "fake-token-for-user-zz") = .error ⟨401, "Malformed token"⟩ ∧
    get_me exStore (some "Bearer abc") = .error ⟨401, "Invalid/missing token"⟩ := by
  obtain ⟨h1, h2, h3, h4⟩ := C10_token_scheme exStore (by decide)
  exact ⟨(h1 exUser5 (by decide)).1, (h1 exUser5 (by decide)).2 "session42",
    (h2 42 (by decide)).1, h3 _ (by decide) (by decide) (by decide),
    h4 _ (by decide)⟩

end TaskOrganizer
